import Mathlib

/-!
Shallow embedding of the core analysis pipeline of the mythra CLI
(src/mythra/llm.py, src/mythra/analyzer.py, src/mythra/config.py),
together with theorems settling the frozen specification claims.

Python values flowing through `parse_llm_json_output` are modelled by the
inductive type `PyVal`; Python dicts are association lists with unique keys
(which is what `json.loads` produces), and assignment/lookup follow Python
dict semantics (assignment updates an existing key in place, otherwise
appends at the end, preserving insertion order).

The two external library calls inside `parse_llm_json_output`
(`json.loads` and `json_pattern.findall`) are passed in as function
parameters (`loads`, `findall`): the embedded code is exactly the control
flow of the Python function around those two calls.
-/

namespace Mythra

/-- Model of a Python value as it can appear in parsed JSON (plus the
float/bool/string scalars relevant to the line-number coercion).
A float is kept as its integer part and fractional digit string, so that
its Python `str` form (`"<ip>.<fr>"`) is representable. -/
inductive PyVal where
  | null
  | bool (b : Bool)
  | int (n : Int)
  | float (ip : Int) (fr : String)
  | str (s : String)
  | list (xs : List PyVal)
  | dict (kvs : List (String × PyVal))

/-- Python `d.get(k)` / `d[k]` on an association-list dict: first binding
of the key, if any. -/
def dictGet (kvs : List (String × PyVal)) (k : String) : Option PyVal :=
  match kvs with
  | [] => none
  | (k', v) :: rest => if k' = k then some v else dictGet rest k

/-- Python `d[k] = v` on an association-list dict: update the existing
binding in place (keeping its position), otherwise append at the end. -/
def dictSet (kvs : List (String × PyVal)) (k : String) (v : PyVal) :
    List (String × PyVal) :=
  match kvs with
  | [] => [(k, v)]
  | (k', v') :: rest =>
      if k' = k then (k', v) :: rest else (k', v') :: dictSet rest k v

/-- Decimal digit character for a single digit 0..9 (Python decimal printing). -/
def digitChar (d : Nat) : Char :=
  if d = 0 then '0' else if d = 1 then '1' else if d = 2 then '2'
  else if d = 3 then '3' else if d = 4 then '4' else if d = 5 then '5'
  else if d = 6 then '6' else if d = 7 then '7' else if d = 8 then '8'
  else '9'

/-- Decimal digit accumulation with explicit fuel (structural recursion,
so that concrete values reduce in the kernel). A fuel of `n + 1` always
suffices, since the decimal length of `n` is at most `n + 1`. -/
def natCharsAux : Nat → Nat → List Char
  | 0, _ => []
  | fuel + 1, n =>
      if n < 10 then [digitChar n]
      else natCharsAux fuel (n / 10) ++ [digitChar (n % 10)]

/-- Decimal digit string of a natural number, as Python `str` prints it. -/
def natChars (n : Nat) : List Char :=
  natCharsAux (n + 1) n

/-- Python `str` of an int: optional minus sign followed by decimal digits. -/
def intChars (n : Int) : List Char :=
  if n < 0 then '-' :: natChars n.natAbs else natChars n.toNat

/-- Python `str(v)` for the scalar values the validator can feed to
`.isdigit()`. The `list`/`dict` cases are abbreviated to their opening
bracket character: they are unreachable in the validator because the
`isinstance(..., (int, float, str))` guard short-circuits before `str`
is applied to them. -/
def pyStrChars : PyVal → List Char
  | .null => "None".data
  | .bool true => "True".data
  | .bool false => "False".data
  | .int n => intChars n
  | .float ip fr => intChars ip ++ '.' :: fr.data
  | .str s => s.data
  | .list _ => ['[']
  | .dict _ => ['\x7b']

/-- Python `str.isdigit()` (ASCII model): non-empty and all characters
are decimal digits. -/
def isdigitL (cs : List Char) : Bool :=
  !cs.isEmpty && cs.all Char.isDigit

/-- Python `int(s)` on a digit-only string: the decimal value. -/
def strToNat (cs : List Char) : Nat :=
  cs.foldl (fun a c => a * 10 + (c.toNat - 48)) 0

/-- Python `isinstance(v, (int, float, str))`. Note that Python `bool`
is a subclass of `int`, so booleans pass this check. -/
def isIntFloatStr : PyVal → Bool
  | .int _ => true
  | .bool _ => true
  | .float _ _ => true
  | .str _ => true
  | _ => false

/-- Python `int(v)` for the values that can reach the coercion (an int, or
a digit-only string; other constructors are unreachable behind the
`str(v).isdigit()` guard). -/
def pyToInt : PyVal → Int
  | .int n => n
  | .bool b => if b then 1 else 0
  | .float ip _ => ip
  | .str s => Int.ofNat (strToNat s.data)
  | _ => 0

/-- The line-number coercion of `parse_llm_json_output` (llm.py lines
127-138): `int(x) if isinstance(x, (int, float, str)) and str(x).isdigit()
else None`, applied to `item.get(key)` (`none` models an absent key). -/
def coerceLine (v : Option PyVal) : PyVal :=
  match v with
  | none => .null
  | some w => if isIntFloatStr w && isdigitL (pyStrChars w) then .int (pyToInt w) else .null

/-- Per-item validation of `parse_llm_json_output` (llm.py lines 119-143):
keep the item when it is a dict containing the keys `description`,
`suggested_change` and `safety_rationale` (presence only — the values'
types are not inspected), after overwriting `start_line` and `end_line`
with their coerced forms. `end_line` is read from the dict after the
`start_line` assignment, exactly as the Python mutation order does. -/
def validateItem : PyVal → Option PyVal
  | .dict kvs =>
      if (dictGet kvs "description").isSome
          && (dictGet kvs "suggested_change").isSome
          && (dictGet kvs "safety_rationale").isSome then
        let d1 := dictSet kvs "start_line" (coerceLine (dictGet kvs "start_line"))
        let d2 := dictSet d1 "end_line" (coerceLine (dictGet d1 "end_line"))
        some (.dict d2)
      else none
  | _ => none

/-- The validation loop over all candidate items (llm.py lines 118-145). -/
def validateAll (xs : List PyVal) : List PyVal :=
  xs.filterMap validateItem

/-- Python `s.strip()` (ASCII whitespace model): drop whitespace from both
ends, on the character list of the string. -/
def stripChars (cs : List Char) : List Char :=
  (((cs.dropWhile Char.isWhitespace).reverse.dropWhile Char.isWhitespace).reverse)

/-- Python `s.startswith(pat)` on character lists. -/
def startsWithL (cs pat : List Char) : Bool :=
  pat.isPrefixOf cs

/-- Python `s.endswith(pat)` on character lists. -/
def endsWithL (cs pat : List Char) : Bool :=
  pat.reverse.isPrefixOf cs.reverse

/-- Python truthiness on the two capture groups of one `findall` tuple:
`next((m for m in match_group if m), None)`. -/
def firstNonEmpty (mg : String × String) : Option String :=
  if mg.1 ≠ "" then some mg.1
  else if mg.2 ≠ "" then some mg.2
  else none

/-- Body of the regex-extraction loop of `parse_llm_json_output` (llm.py
lines 83-111) for a single `findall` match tuple: take the non-empty
capture group, require the stripped text to start with `[` and end with
`]`, parse it, and extend the accumulator when the parse yields a list. -/
def regexStep (loads : String → Option PyVal) (acc : List PyVal)
    (mg : String × String) : List PyVal :=
  match firstNonEmpty mg with
  | none => acc
  | some js =>
      if startsWithL (stripChars js.data) "[".data
          && endsWithL (stripChars js.data) "]".data then
        match loads js with
        | some (.list xs) => acc ++ xs
        | _ => acc
      else acc

/-- The regex-extraction phase of `parse_llm_json_output` (llm.py lines
76-115): iterate over all `findall` matches, aggregating every parsed
list (the code deliberately does not stop at the first match). -/
def regexExtract (loads : String → Option PyVal)
    (mts : List (String × String)) : List PyVal :=
  mts.foldl (regexStep loads) []

/-- Embedding of `parse_llm_json_output` (llm.py lines 51-145).
`loads` stands for `json.loads` (`none` = `JSONDecodeError`) and
`findall` for `json_pattern.findall`. Note the control flow of the
source: the regex extraction runs only in the `except JSONDecodeError`
branch; when the whole string parses but the root is neither a list nor
a dict with a list-valued `"optimizations"` key, the candidate pool
stays empty and the regex scan is never reached (the comment in the
source announcing a fallback notwithstanding). -/
def parse_llm_json_output (loads : String → Option PyVal)
    (findall : String → List (String × String)) (llm_output : String) :
    List PyVal :=
  let suggestions : List PyVal :=
    match loads llm_output with
    | some (.list xs) => xs
    | some (.dict kvs) =>
        match dictGet kvs "optimizations" with
        | some (.list xs) => xs
        | _ => []
    | some _ => []
    | none => regexExtract loads (findall llm_output)
  validateAll suggestions

/-! ### Configuration constants (config.py) -/

/-- config.py line 13. -/
def GEMINI_MODELS : List String := ["gemini-", "models/gemini-"]

/-- config.py line 14. -/
def OPENAI_MODELS : List String := ["gpt-"]

/-- config.py line 15. -/
def ANTHROPIC_MODELS : List String := ["claude-"]

/-- config.py line 29. -/
def LLM_MAX_RETRIES : Nat := 2

/-- config.py line 30 (seconds). -/
def LLM_RETRY_DELAY_BASE : Nat := 2

/-! ### Provider router (llm.py, `get_client_details_for_model`) -/

/-- Substring containment on character lists, modelling Python's
`needle in haystack` on strings (true for the empty needle). -/
def containsSub (hay pat : List Char) : Bool :=
  match hay with
  | [] => pat.isEmpty
  | _ :: t => pat.isPrefixOf hay || containsSub t pat

/-- Python `s.lower()` (ASCII model, character-wise). -/
def lowerStr (s : String) : String :=
  ⟨s.data.map Char.toLower⟩

/-- `any(prefix in model_name_lower for prefix in pats)` (llm.py lines
396, 406, 410). -/
def anyPatIn (name : String) (pats : List String) : Bool :=
  pats.any (fun p => containsSub name.data p.data)

/-- Python `a or b` over optional API-key strings: `a` wins only when it
is present and non-empty (Python treats an empty string as falsy). -/
def pyOrKey (a b : Option String) : Option String :=
  match a with
  | some s => if s = "" then b else some s
  | none => b

/-- Python truthiness of `key_to_use` at llm.py line 419. -/
def keyTruthy : Option String → Bool
  | some s => s ≠ ""
  | none => false

/-- The two `ValueError` exits of `get_client_details_for_model`:
line 417 (unknown model prefix) and line 423 (no API key available). -/
inductive RouterErr where
  | unknownModel
  | missingKey (clientType : String)

/-- Embedding of `get_client_details_for_model` (llm.py lines 384-428).
Returns `(client_type, key_to_use, validated_model_name)`. The `env*`
parameters stand for the `DEFAULT_*_API_KEY` values read from the
environment in config.py. -/
def get_client_details_for_model (model_name : String)
    (openai_key google_key anthropic_key : Option String)
    (envOpenai envGoogle envAnthropic : Option String) :
    Except RouterErr (String × String × String) :=
  let model_name_lower := lowerStr model_name
  if anyPatIn model_name_lower GEMINI_MODELS then
    let key_to_use := pyOrKey google_key envGoogle
    let validated_model_name :=
      if startsWithL model_name.data "models/".data then model_name
      else "models/" ++ model_name
    match key_to_use with
    | some s => if s = "" then .error (.missingKey "gemini")
                else .ok ("gemini", s, validated_model_name)
    | none => .error (.missingKey "gemini")
  else if anyPatIn model_name_lower OPENAI_MODELS then
    match pyOrKey openai_key envOpenai with
    | some s => if s = "" then .error (.missingKey "openai")
                else .ok ("openai", s, model_name)
    | none => .error (.missingKey "openai")
  else if anyPatIn model_name_lower ANTHROPIC_MODELS then
    match pyOrKey anthropic_key envAnthropic with
    | some s => if s = "" then .error (.missingKey "anthropic")
                else .ok ("anthropic", s, model_name)
    | none => .error (.missingKey "anthropic")
  else .error .unknownModel

/-! ### LLM invoker (llm.py, `call_llm_api`)

One invocation attempt is abstracted by its provider-visible outcome: the
backend either answers (with `some` text, or `none` for the
empty/malformed success envelope of llm.py lines 299-303, 317-321,
338-342), or raises an exception of one of the classes grouped at llm.py
lines 251-278. The behaviour of the backend across attempts is a function
from the attempt index to that outcome. -/

/-- Outcome of one attempt of the `for attempt in range(...)` loop.
`transient` names an exception of the retryable classes (llm.py 251-265),
`authErr` / `badRequest` one of the classes grouped at llm.py 267-278,
and `otherErr` any exception outside all three groups. Python dispatches
`except` clauses by `isinstance`, and every class in the auth and
bad-request groups subclasses one of the retryable base classes (OpenAI's
and Anthropic's `AuthenticationError` and `BadRequestError` subclass
`APIError`; Gemini's `PermissionDenied`, `NotFound` and `ClientError`
subclass `GoogleAPIError`) — this decides the routing in `callLoop`. -/
inductive AttemptOutcome where
  | ok (content : Option String)
  | transient
  | authErr
  | badRequest
  | otherErr

/-- How `call_llm_api` terminates: a normal return (`some` text or `None`),
or `raise typer.Exit(code)` from the outer exception handlers
(llm.py lines 361-375). -/
inductive CallResult where
  | returned (r : Option String)
  | exited (code : Nat)

/-- Observable trace of one `call_llm_api` execution: its result, the
number of attempts performed, and the list of backoff sleeps (seconds)
in order. -/
structure CallTrace where
  result : CallResult
  attempts : Nat
  delays : List Nat

/-- The retry loop of `call_llm_api` (llm.py lines 281-359), with `fuel`
the number of remaining loop iterations (`maxRetries + 1 - attempt`).
An exception caught by the inner `except retryable_exceptions` (llm.py
346) sleeps `base * 2 ^ attempt` and retries while `attempt < maxRetries`,
else returns `None`. Because every auth / bad-request class subclasses a
retryable base class (see `AttemptOutcome`), the inner handler catches
those exceptions too — the outer `raise typer.Exit(code=1)` handlers at
llm.py 361-370 are unreachable for them, so `authErr` and `badRequest`
take the same retry path as `transient`. Only an exception outside all
three groups escapes the loop, reaching the outer `except Exception`
(llm.py 371-375), which raises `typer.Exit(code=1)`. -/
def callLoop (behavior : Nat → AttemptOutcome) (maxRetries base : Nat) :
    Nat → Nat → List Nat → CallTrace
  | attempt, 0, delays => ⟨.returned none, attempt, delays⟩
  | attempt, fuel + 1, delays =>
      match behavior attempt with
      | .ok c => ⟨.returned c, attempt + 1, delays⟩
      | .transient =>
          if attempt < maxRetries then
            callLoop behavior maxRetries base (attempt + 1) fuel
              (delays ++ [base * 2 ^ attempt])
          else ⟨.returned none, attempt + 1, delays⟩
      | .authErr =>
          if attempt < maxRetries then
            callLoop behavior maxRetries base (attempt + 1) fuel
              (delays ++ [base * 2 ^ attempt])
          else ⟨.returned none, attempt + 1, delays⟩
      | .badRequest =>
          if attempt < maxRetries then
            callLoop behavior maxRetries base (attempt + 1) fuel
              (delays ++ [base * 2 ^ attempt])
          else ⟨.returned none, attempt + 1, delays⟩
      | .otherErr => ⟨.exited 1, attempt + 1, delays⟩

/-- Embedding of `call_llm_api` (llm.py lines 244-381): run the retry
loop from attempt 0 with `maxRetries + 1` available iterations. -/
def call_llm_api (behavior : Nat → AttemptOutcome) (maxRetries base : Nat) :
    CallTrace :=
  callLoop behavior maxRetries base 0 (maxRetries + 1) []

/-! ### Orchestrator (analyzer.py, `run_analysis`) -/

/-- Result of `file_path.read_text` for one artifact (analyzer.py lines
136-137, 161-162): the decoded content, or a read exception. -/
inductive ReadResult where
  | ok (content : String)
  | readError (msg : String)

/-- One entry of the `asyncio.gather(..., return_exceptions=True)` result
list (analyzer.py line 176): either an exception object captured by
`gather`, or the value returned by `analyze_single_file`. `value none`
models the `result is None` branch of analyzer.py lines 211-214 (dead in
practice, since `analyze_single_file` always returns a list). -/
inductive GatherResult where
  | exc (msg : String)
  | value (v : Option (List PyVal))

/-- Embedding of `analyze_single_file` (analyzer.py lines 41-82) as seen
by `gather`: a `typer.Exit` raised inside `call_llm_api` propagates out of
the coroutine and is captured by `gather(return_exceptions=True)` as an
exception object (click's `Exit` subclasses `RuntimeError`, hence
`Exception`, and stringifies to the empty string); a `None` return from
`call_llm_api` makes `analyze_single_file` return `[]` (lines 70-74);
otherwise the raw text is parsed by `parse_llm_json_output`. -/
def analyze_single_file (loads : String → Option PyVal)
    (findall : String → List (String × String))
    (behavior : Nat → AttemptOutcome) : GatherResult :=
  match (call_llm_api behavior LLM_MAX_RETRIES LLM_RETRY_DELAY_BASE).result with
  | .exited _ => .exc ""
  | .returned none => .value (some [])
  | .returned (some text) => .value (some (parse_llm_json_output loads findall text))

/-- Generic association-list dict assignment for the orchestrator's two
dicts (`all_results`, `errors_occurred`): same Python semantics as
`dictSet`. -/
def dictSetG {α : Type} (kvs : List (String × α)) (k : String) (v : α) :
    List (String × α) :=
  match kvs with
  | [] => [(k, v)]
  | (k', v') :: rest =>
      if k' = k then (k', v) :: rest else (k', v') :: dictSetG rest k v

/-- State after the file-reading loop of `run_analysis` (analyzer.py
lines 135-170): errors recorded so far, the skipped-file counter, and the
queued task file paths in dispatch order. -/
structure Phase1State where
  errors : List (String × String)
  skipped : Nat
  tasks : List String

/-- One iteration of the reading loop (analyzer.py lines 135-170): a read
exception or empty/whitespace-only content records an error and bumps the
skip counter; otherwise the artifact is queued as a task. -/
def runStep1 (st : Phase1State) (art : String × ReadResult) : Phase1State :=
  match art.2 with
  | .readError e =>
      { st with errors := dictSetG st.errors art.1 ("Read error: " ++ e),
                skipped := st.skipped + 1 }
  | .ok content =>
      if (stripChars content.data).isEmpty then
        { st with errors := dictSetG st.errors art.1 "Empty file",
                  skipped := st.skipped + 1 }
      else { st with tasks := st.tasks ++ [art.1] }

/-- State after the gather-processing loop of `run_analysis` (analyzer.py
lines 179-220). -/
structure Phase2State where
  results : List (String × List PyVal)
  errors : List (String × String)

/-- One iteration of the gather-processing loop (analyzer.py lines
179-220): an exception captured by `gather` records
`"Analysis error: <str(e)>"`; a returned list (possibly empty) records a
result entry; a `None` return would record an analysis failure. -/
def runStep2 (settle : String → GatherResult) (st : Phase2State)
    (p : String) : Phase2State :=
  match settle p with
  | .exc e => { st with errors := dictSetG st.errors p ("Analysis error: " ++ e) }
  | .value (some l) => { st with results := dictSetG st.results p l }
  | .value none =>
      { st with errors :=
          dictSetG st.errors p "Analysis failed (LLM error or no content)" }

/-- The final report of `run_analysis` as serialized at analyzer.py lines
261-272, plus the internal `skipped_files_count` counter. The saved JSON
sorts the two dicts by key; sorting does not change key sets or counts,
and the unsorted dicts are kept here alongside the claim-relevant
metadata counts. -/
structure Report where
  results_by_file : List (String × List PyVal)
  errors_by_file : List (String × String)
  files_analyzed_count : Nat
  skipped_files_count : Nat

/-- Embedding of `run_analysis` (analyzer.py lines 85-286) over a list of
artifacts `(path, read result)` — duplicates of the external
file-discovery collaborator are out of scope, so paths are expected to be
distinct — and a per-artifact backend behaviour (keyed by path; the
prompt built from the file content does not influence any claim). -/
def run_analysis (loads : String → Option PyVal)
    (findall : String → List (String × String))
    (arts : List (String × ReadResult))
    (behavior : String → Nat → AttemptOutcome) : Report :=
  let s1 := arts.foldl runStep1 ⟨[], 0, []⟩
  let s2 := s1.tasks.foldl
    (runStep2 (fun p => analyze_single_file loads findall (behavior p)))
    ⟨[], s1.errors⟩
  ⟨s2.results, s2.errors, arts.length, s1.skipped⟩

/-! ### Classification helpers used by the aggregation lemmas

These predicates name the branch taken by `runStep1` / `runStep2` for one
artifact; they are read off the source branches and used to state what
the two folds compute. -/

/-- The error message `runStep1` records for an artifact, when it skips
it (analyzer.py lines 139, 162). -/
def skipMsg : ReadResult → Option String
  | .readError e => some ("Read error: " ++ e)
  | .ok c => if (stripChars c.data).isEmpty then some "Empty file" else none

/-- Whether `runStep1` skips this artifact rather than queueing a task. -/
def isSkip (a : String × ReadResult) : Bool :=
  (skipMsg a.2).isSome

/-- The error message `runStep2` records for a settled task, if any
(analyzer.py lines 188, 212-214). -/
def settleErrMsg : GatherResult → Option String
  | .exc e => some ("Analysis error: " ++ e)
  | .value none => some "Analysis failed (LLM error or no content)"
  | .value (some _) => none

/-- The optimization list `runStep2` records for a settled task, if any. -/
def settleVal : GatherResult → Option (List PyVal)
  | .value (some l) => some l
  | _ => none

/-- Whether a settled task is recorded as a result (analyzer.py line 194). -/
def isSucc (settle : String → GatherResult) (p : String) : Bool :=
  (settleVal (settle p)).isSome

/-! ### Specification-side predicates for the claims -/

/-- A validated line-field value: null, or a non-negative integer. -/
def nullOrNatV (a : PyVal) : Prop :=
  a = .null ∨ ∃ n : Int, 0 ≤ n ∧ a = .int n

/-- An optional dict entry holding a string value. -/
def isStrOpt : Option PyVal → Bool
  | some (.str _) => true
  | _ => false

/-- A line field that is present and already in validated form (null or a
non-negative integer), so that the coercion leaves it unchanged. -/
def lineOkB : Option PyVal → Bool
  | some .null => true
  | some (.int n) => decide (0 ≤ n)
  | _ => false

/-- A well-formed suggestion object in the sense of the round-trip claim:
a dict whose three required fields are present with string values and
whose two line fields are present in validated form. -/
def wellFormedItem : PyVal → Bool
  | .dict kvs =>
      isStrOpt (dictGet kvs "description")
        && isStrOpt (dictGet kvs "suggested_change")
        && isStrOpt (dictGet kvs "safety_rationale")
        && lineOkB (dictGet kvs "start_line")
        && lineOkB (dictGet kvs "end_line")
  | _ => false

/-! ### Concrete inputs used by counterexamples and witnesses

Each `loads` function below is the restriction of `json.loads` to the
strings the scenario feeds it (answering `none`, i.e. `JSONDecodeError`,
elsewhere), and each `findall` the corresponding restriction of
`json_pattern.findall`; both agree with the real library on those inputs. -/

/-- Claim C1 input: two readable, non-empty artifacts. -/
def c1arts : List (String × ReadResult) :=
  [("A.sol", .ok "contract A \x7b\x7d"), ("B.sol", .ok "contract B \x7b\x7d")]

/-- Claim C1 backend behaviour: the provider raises an authentication
error (a Fatal-Auth classification) for `A.sol` on every attempt and
answers `[]` for `B.sol`. -/
def c1behavior : String → Nat → AttemptOutcome :=
  fun p _ => if p = "A.sol" then .authErr else .ok (some "[]")

/-- Claim C1 `json.loads`: the literal text `[]` parses to the empty list. -/
def c1loads : String → Option PyVal :=
  fun s => if s = "[]" then some (.list []) else none

/-- Claim C1 `findall` (never consulted in this scenario). -/
def c1findall : String → List (String × String) := fun _ => []

/-- Claim C2 raw response: valid JSON whose root is a dict without a
list-valued `optimizations` field, with a well-formed suggestion list
embedded as the value of another key. -/
def c2raw : String :=
  "\x7b\"note\": 1, \"x\": [\x7b\"description\": \"d\", \"suggested_change\": \"c\", \"safety_rationale\": \"r\"\x7d]\x7d"

/-- The bare bracketed list inside `c2raw`, exactly as the bare-list
alternative of `json_pattern` captures it. -/
def c2sub : String :=
  "[\x7b\"description\": \"d\", \"suggested_change\": \"c\", \"safety_rationale\": \"r\"\x7d]"

/-- The suggestion object embedded in `c2raw`. -/
def c2item : PyVal :=
  .dict [("description", .str "d"), ("suggested_change", .str "c"),
         ("safety_rationale", .str "r")]

/-- Claim C2 `json.loads` on the two strings the scenario can feed it. -/
def c2loads : String → Option PyVal :=
  fun s =>
    if s = c2raw then
      some (.dict [("note", .int 1), ("x", .list [c2item])])
    else if s = c2sub then some (.list [c2item])
    else none

/-- Claim C2 `findall`: on `c2raw` the bare-list alternative (second
capture group) matches `c2sub`. -/
def c2findall : String → List (String × String) :=
  fun s => if s = c2raw then [("", c2sub)] else []

/-- Claim C3 input item: `description` holds an int, not a string. -/
def c3item : PyVal :=
  .dict [("description", .int 1), ("suggested_change", .str "c"),
         ("safety_rationale", .str "r")]

/-- Claim C3 raw response: a JSON list containing only `c3item`. -/
def c3raw : String :=
  "[\x7b\"description\": 1, \"suggested_change\": \"c\", \"safety_rationale\": \"r\"\x7d]"

/-- Claim C3 `json.loads`. -/
def c3loads : String → Option PyVal :=
  fun s => if s = c3raw then some (.list [c3item]) else none

/-- Claim C3 `findall` (never consulted). -/
def c3findall : String → List (String × String) := fun _ => []

/-- Claim C4 input item: `start_line` holds the float `45.0` and
`end_line` the negative int `-3`. -/
def c4item : PyVal :=
  .dict [("description", .str "d"), ("suggested_change", .str "c"),
         ("safety_rationale", .str "r"), ("start_line", .float 45 "0"),
         ("end_line", .int (-3))]

/-- Claim C4 raw response containing only `c4item`. -/
def c4raw : String :=
  "[\x7b\"description\": \"d\", \"suggested_change\": \"c\", \"safety_rationale\": \"r\", \"start_line\": 45.0, \"end_line\": -3\x7d]"

/-- Claim C4 `json.loads`. -/
def c4loads : String → Option PyVal :=
  fun s => if s = c4raw then some (.list [c4item]) else none

/-- Claim C4 `findall` (never consulted). -/
def c4findall : String → List (String × String) := fun _ => []

/-- Claim C5 input: one well-formed suggestion list. -/
def c5items : List PyVal :=
  [.dict [("description", .str "d"), ("suggested_change", .str "c"),
          ("safety_rationale", .str "r"), ("start_line", .int 3),
          ("end_line", .int 7)]]

/-- Claim C5 raw response. -/
def c5raw : String :=
  "[\x7b\"description\": \"d\", \"suggested_change\": \"c\", \"safety_rationale\": \"r\", \"start_line\": 3, \"end_line\": 7\x7d]"

/-- Claim C5 `json.loads`. -/
def c5loads : String → Option PyVal :=
  fun s => if s = c5raw then some (.list c5items) else none

/-- Claim C5 `findall` (never consulted). -/
def c5findall : String → List (String × String) := fun _ => []

/-- Claim C8 input bindings: both line fields present as ints with
`start_line` greater than `end_line`. -/
def c8kvs : List (String × PyVal) :=
  [("description", .str "d"), ("suggested_change", .str "c"),
   ("safety_rationale", .str "r"), ("start_line", .int 50),
   ("end_line", .int 10)]

/-- Claim C8 input item. -/
def c8item : PyVal := .dict c8kvs

/-- Claim C8 raw response containing only `c8item`. -/
def c8raw : String :=
  "[\x7b\"description\": \"d\", \"suggested_change\": \"c\", \"safety_rationale\": \"r\", \"start_line\": 50, \"end_line\": 10\x7d]"

/-- Claim C8 `json.loads`. -/
def c8loads : String → Option PyVal :=
  fun s => if s = c8raw then some (.list [c8item]) else none

/-- Claim C8 `findall` (never consulted). -/
def c8findall : String → List (String × String) := fun _ => []

/-- Claim C9 witness input: one empty artifact, one unreadable artifact,
one analyzable artifact, one artifact whose provider always fails. -/
def c9arts : List (String × ReadResult) :=
  [("a.sol", .ok "  "), ("b.sol", .readError "boom"),
   ("c.sol", .ok "contract C \x7b\x7d"), ("d.sol", .ok "contract D \x7b\x7d")]

/-- Claim C9 witness backend behaviour: `d.sol`'s analysis raises an
exception outside the three provider taxonomies on every attempt, which
the outer `except Exception` escalates to `typer.Exit(1)`; `gather`
captures it as a per-artifact analysis error. -/
def c9behavior : String → Nat → AttemptOutcome :=
  fun p _ => if p = "d.sol" then .otherErr else .ok (some "[]")

/-- Claim C9 witness `json.loads`. -/
def c9loads : String → Option PyVal :=
  fun s => if s = "[]" then some (.list []) else none

/-- Claim C9 witness `findall` (never consulted). -/
def c9findall : String → List (String × String) := fun _ => []

/-- Claim C10 witness item: no line keys at all. -/
def c10item : PyVal :=
  .dict [("description", .str "d"), ("suggested_change", .str "c"),
         ("safety_rationale", .str "r")]

/-- Claim C10 witness output item: line keys appended, set to null. -/
def c10out : PyVal :=
  .dict [("description", .str "d"), ("suggested_change", .str "c"),
         ("safety_rationale", .str "r"), ("start_line", .null),
         ("end_line", .null)]

/-- Claim C10 witness raw response. -/
def c10raw : String :=
  "[\x7b\"description\": \"d\", \"suggested_change\": \"c\", \"safety_rationale\": \"r\"\x7d]"

/-- Claim C10 witness `json.loads`. -/
def c10loads : String → Option PyVal :=
  fun s => if s = c10raw then some (.list [c10item]) else none

/-- Claim C10 witness `findall` (never consulted). -/
def c10findall : String → List (String × String) := fun _ => []

/-! ### Dict lemmas -/

theorem dictGet_set_self (kvs : List (String × PyVal)) (k : String) (v : PyVal) :
    dictGet (dictSet kvs k v) k = some v := by
  induction kvs with
  | nil => simp [dictSet, dictGet]
  | cons hd t ih =>
      obtain ⟨k', v'⟩ := hd
      by_cases hk : k' = k
      · simp [dictSet, dictGet, hk]
      · simp [dictSet, dictGet, hk, ih]

theorem dictGet_set_other (kvs : List (String × PyVal)) (k1 k2 : String) (v : PyVal)
    (h : k1 ≠ k2) : dictGet (dictSet kvs k1 v) k2 = dictGet kvs k2 := by
  induction kvs with
  | nil => simp [dictSet, dictGet, h]
  | cons hd t ih =>
      obtain ⟨k', v'⟩ := hd
      by_cases hk : k' = k1
      · subst hk
        have : k' ≠ k2 := h
        simp [dictSet, dictGet, this]
      · by_cases hk2 : k' = k2
        · subst hk2
          simp [dictSet, dictGet, hk]
        · simp [dictSet, dictGet, hk, hk2, ih]

theorem dictSet_of_get (kvs : List (String × PyVal)) (k : String) (v : PyVal)
    (h : dictGet kvs k = some v) : dictSet kvs k v = kvs := by
  induction kvs with
  | nil => simp [dictGet] at h
  | cons hd t ih =>
      obtain ⟨k', v'⟩ := hd
      by_cases hk : k' = k
      · simp [dictGet, hk] at h
        simp [dictSet, hk, h]
      · simp [dictGet, hk] at h
        simp [dictSet, hk, ih h]

/-! ### Decimal-printing lemmas -/

theorem digitChar_isDigit (d : Nat) : (digitChar d).isDigit = true := by
  unfold digitChar
  split_ifs <;> decide

theorem natCharsAux_digits (fuel : Nat) :
    ∀ n c, c ∈ natCharsAux fuel n → c.isDigit = true := by
  induction fuel with
  | zero => intro n c hc; simp [natCharsAux] at hc
  | succ fuel ih =>
      intro n c hc
      simp only [natCharsAux] at hc
      split at hc
      · simp at hc; subst hc; exact digitChar_isDigit n
      · rcases List.mem_append.mp hc with h | h
        · exact ih _ _ h
        · simp at h; subst h; exact digitChar_isDigit _

theorem natCharsAux_ne_nil (fuel n : Nat) : natCharsAux (fuel + 1) n ≠ [] := by
  simp only [natCharsAux]
  split
  · simp
  · simp

theorem isdigitL_natChars (n : Nat) : isdigitL (natChars n) = true := by
  have h1 := natCharsAux_ne_nil n n
  simp only [isdigitL, natChars, Bool.and_eq_true, Bool.not_eq_true',
    List.all_eq_true]
  constructor
  · cases hcase : natCharsAux (n + 1) n with
    | nil => exact absurd hcase h1
    | cons a l => rfl
  · intro c hc
    exact natCharsAux_digits _ _ _ hc

/-! ### Coercion lemmas -/

theorem coerce_int_nonneg (n : Int) (h : 0 ≤ n) :
    coerceLine (some (.int n)) = .int n := by
  have hneg : ¬ n < 0 := not_lt.mpr h
  simp [coerceLine, isIntFloatStr, pyStrChars, intChars, hneg,
    isdigitL_natChars, pyToInt]

theorem coerce_int_neg (n : Int) (h : n < 0) :
    coerceLine (some (.int n)) = .null := by
  simp [coerceLine, isIntFloatStr, pyStrChars, intChars, h, isdigitL]

theorem coerce_str (s : String) :
    coerceLine (some (.str s)) =
      if isdigitL s.data then .int (Int.ofNat (strToNat s.data)) else .null := by
  simp [coerceLine, isIntFloatStr, pyStrChars, pyToInt]

theorem coerce_float (ip : Int) (fr : String) :
    coerceLine (some (.float ip fr)) = .null := by
  simp [coerceLine, isIntFloatStr, pyStrChars, isdigitL, List.all_append]

theorem coerce_bool (b : Bool) : coerceLine (some (.bool b)) = .null := by
  cases b <;> simp [coerceLine, isIntFloatStr, pyStrChars, isdigitL]

theorem coerceLine_cases (o : Option PyVal) :
    coerceLine o = .null ∨ ∃ n : Int, 0 ≤ n ∧ coerceLine o = .int n := by
  cases o with
  | none => exact Or.inl rfl
  | some w =>
      cases w with
      | null => exact Or.inl rfl
      | bool b => exact Or.inl (coerce_bool b)
      | int n =>
          rcases le_or_lt 0 n with h | h
          · exact Or.inr ⟨n, h, coerce_int_nonneg n h⟩
          · exact Or.inl (coerce_int_neg n h)
      | float ip fr => exact Or.inl (coerce_float ip fr)
      | str s =>
          by_cases h : isdigitL s.data
          · exact Or.inr ⟨Int.ofNat (strToNat s.data), Int.ofNat_nonneg _,
              by rw [coerce_str, if_pos h]⟩
          · exact Or.inl (by rw [coerce_str, if_neg h])
      | list xs => exact Or.inl rfl
      | dict kvs => exact Or.inl rfl

theorem nullOrNatV_coerce (o : Option PyVal) : nullOrNatV (coerceLine o) := by
  rcases coerceLine_cases o with h | ⟨n, hn, h⟩
  · exact Or.inl h
  · exact Or.inr ⟨n, hn, h⟩

/-! ### Validation lemmas -/

theorem validateItem_shape (v w : PyVal) (h : validateItem v = some w) :
    ∃ kvs,
      w = .dict (dictSet
        (dictSet kvs "start_line" (coerceLine (dictGet kvs "start_line")))
        "end_line"
        (coerceLine (dictGet
          (dictSet kvs "start_line" (coerceLine (dictGet kvs "start_line")))
          "end_line"))) := by
  cases v with
  | dict kvs =>
      refine ⟨kvs, ?_⟩
      simp only [validateItem] at h
      split at h
      · exact (Option.some.injEq _ _ ▸ h).symm
      · exact absurd h (by simp)
  | null => exact absurd h (by simp [validateItem])
  | bool b => exact absurd h (by simp [validateItem])
  | int n => exact absurd h (by simp [validateItem])
  | float ip fr => exact absurd h (by simp [validateItem])
  | str s => exact absurd h (by simp [validateItem])
  | list xs => exact absurd h (by simp [validateItem])

theorem validateItem_lines (v w : PyVal) (h : validateItem v = some w) :
    ∃ kvs, w = .dict kvs ∧
      (∃ a, dictGet kvs "start_line" = some a ∧ nullOrNatV a) ∧
      (∃ b, dictGet kvs "end_line" = some b ∧ nullOrNatV b) := by
  obtain ⟨kvs, rfl⟩ := validateItem_shape v w h
  refine ⟨_, rfl,
    ⟨coerceLine (dictGet kvs "start_line"), ?_, nullOrNatV_coerce _⟩,
    ⟨coerceLine (dictGet
        (dictSet kvs "start_line" (coerceLine (dictGet kvs "start_line")))
        "end_line"), ?_, nullOrNatV_coerce _⟩⟩
  · rw [dictGet_set_other _ "end_line" "start_line" _ (by decide)]
    exact dictGet_set_self _ _ _
  · exact dictGet_set_self _ _ _

theorem parse_exists_pool (loads : String → Option PyVal)
    (findall : String → List (String × String)) (raw : String) :
    ∃ pool, parse_llm_json_output loads findall raw = validateAll pool :=
  ⟨_, rfl⟩

theorem isStrOpt_isSome (o : Option PyVal) (h : isStrOpt o = true) :
    o.isSome = true := by
  cases o with
  | none => simp [isStrOpt] at h
  | some w => rfl

theorem lineOkB_coerce (o : Option PyVal) (h : lineOkB o = true) :
    ∃ a, o = some a ∧ coerceLine o = a := by
  cases o with
  | none => simp [lineOkB] at h
  | some w =>
      cases w with
      | null => exact ⟨.null, rfl, rfl⟩
      | int n =>
          simp only [lineOkB, decide_eq_true_eq] at h
          exact ⟨.int n, rfl, coerce_int_nonneg n h⟩
      | bool b => simp [lineOkB] at h
      | float ip fr => simp [lineOkB] at h
      | str s => simp [lineOkB] at h
      | list xs => simp [lineOkB] at h
      | dict kvs => simp [lineOkB] at h

theorem validateItem_wellFormed (v : PyVal) (h : wellFormedItem v = true) :
    validateItem v = some v := by
  cases v with
  | dict kvs =>
      simp only [wellFormedItem, Bool.and_eq_true] at h
      obtain ⟨⟨⟨⟨h1, h2⟩, h3⟩, h4⟩, h5⟩ := h
      obtain ⟨a, ha, hca⟩ := lineOkB_coerce _ h4
      obtain ⟨b, hb, hcb⟩ := lineOkB_coerce _ h5
      have hd1 : dictSet kvs "start_line" (coerceLine (dictGet kvs "start_line")) = kvs := by
        rw [hca]
        exact dictSet_of_get _ _ _ ha
      have hd2 : dictSet kvs "end_line" (coerceLine (dictGet kvs "end_line")) = kvs := by
        rw [hcb]
        exact dictSet_of_get _ _ _ hb
      simp only [validateItem, isStrOpt_isSome _ h1, isStrOpt_isSome _ h2,
        isStrOpt_isSome _ h3, Bool.and_self, if_true, hd1, hd2]
  | null => simp [wellFormedItem] at h
  | bool b => simp [wellFormedItem] at h
  | int n => simp [wellFormedItem] at h
  | float ip fr => simp [wellFormedItem] at h
  | str s => simp [wellFormedItem] at h
  | list xs => simp [wellFormedItem] at h

theorem validateAll_wellFormed (l : List PyVal)
    (h : ∀ x ∈ l, wellFormedItem x = true) : validateAll l = l := by
  induction l with
  | nil => rfl
  | cons a t ih =>
      simp only [validateAll, List.filterMap_cons,
        validateItem_wellFormed a (h a (List.mem_cons_self a t))]
      exact congrArg (a :: ·) (ih fun x hx => h x (List.mem_cons_of_mem a hx))

/-! ### Aggregation lemmas (analyzer.py folds) -/

theorem dictSetG_append {α : Type} (d : List (String × α)) (k : String) (v : α)
    (h : k ∉ d.map Prod.fst) : dictSetG d k v = d ++ [(k, v)] := by
  induction d with
  | nil => rfl
  | cons hd t ih =>
      obtain ⟨k', v'⟩ := hd
      simp only [List.map_cons, List.mem_cons] at h
      push_neg at h
      have h1 : ¬ k' = k := fun hh => h.1 hh.symm
      simp [dictSetG, h1, ih h.2]

theorem foldl_runStep1_errors (arts : List (String × ReadResult)) :
    ∀ st : Phase1State,
      (arts.map Prod.fst).Nodup →
      (∀ k ∈ arts.map Prod.fst, k ∉ st.errors.map Prod.fst) →
      (arts.foldl runStep1 st).errors =
        st.errors ++ (arts.filter isSkip).map
          (fun a => (a.1, (skipMsg a.2).getD "")) := by
  induction arts with
  | nil => intro st _ _; simp
  | cons a rest ih =>
      intro st hnd hdisj
      obtain ⟨p, r⟩ := a
      simp only [List.map_cons, List.nodup_cons] at hnd
      have hp : p ∉ st.errors.map Prod.fst := hdisj p (by simp)
      have hdisj' : ∀ m : String, ∀ k ∈ rest.map Prod.fst,
          k ∉ (st.errors ++ [(p, m)]).map Prod.fst := by
        intro m k hk
        simp only [List.map_append, List.map_cons, List.map_nil,
          List.mem_append, List.mem_singleton, not_or]
        refine ⟨hdisj k (by simp [hk]), ?_⟩
        intro hkp
        exact hnd.1 (hkp ▸ hk)
      cases r with
      | readError e =>
          have hstep : runStep1 st (p, ReadResult.readError e) =
              ⟨st.errors ++ [(p, "Read error: " ++ e)],
                st.skipped + 1, st.tasks⟩ := by
            simp [runStep1, dictSetG_append st.errors p _ hp]
          rw [List.foldl_cons, hstep,
            ih ⟨st.errors ++ [(p, "Read error: " ++ e)], st.skipped + 1, st.tasks⟩
              hnd.2 (hdisj' _)]
          simp [isSkip, skipMsg, List.filter_cons]
      | ok c =>
          by_cases hc : stripChars c.data = []
          · have hstep : runStep1 st (p, ReadResult.ok c) =
                ⟨st.errors ++ [(p, "Empty file")],
                  st.skipped + 1, st.tasks⟩ := by
              simp [runStep1, hc, dictSetG_append st.errors p _ hp]
            rw [List.foldl_cons, hstep,
              ih ⟨st.errors ++ [(p, "Empty file")], st.skipped + 1, st.tasks⟩
                hnd.2 (hdisj' _)]
            simp [isSkip, skipMsg, hc, List.filter_cons]
          · have hstep : runStep1 st (p, ReadResult.ok c) =
                ⟨st.errors, st.skipped, st.tasks ++ [p]⟩ := by
              simp [runStep1, hc]
            rw [List.foldl_cons, hstep,
              ih ⟨st.errors, st.skipped, st.tasks ++ [p]⟩ hnd.2
                (fun k hk => hdisj k (by simp [hk]))]
            simp [isSkip, skipMsg, hc, List.filter_cons]

theorem foldl_runStep1_skipped (arts : List (String × ReadResult)) :
    ∀ st : Phase1State,
      (arts.foldl runStep1 st).skipped =
        st.skipped + (arts.filter isSkip).length := by
  induction arts with
  | nil => intro st; simp
  | cons a rest ih =>
      intro st
      obtain ⟨p, r⟩ := a
      cases r with
      | readError e =>
          rw [List.foldl_cons]
          show (rest.foldl runStep1 _).skipped = _
          rw [ih]
          simp [runStep1, isSkip, skipMsg, List.filter_cons]
          omega
      | ok c =>
          by_cases hc : stripChars c.data = []
          · rw [List.foldl_cons]
            show (rest.foldl runStep1 _).skipped = _
            rw [ih]
            simp [runStep1, isSkip, skipMsg, hc, List.filter_cons]
            omega
          · rw [List.foldl_cons]
            show (rest.foldl runStep1 _).skipped = _
            rw [ih]
            simp [runStep1, isSkip, skipMsg, hc, List.filter_cons]

theorem foldl_runStep1_tasks (arts : List (String × ReadResult)) :
    ∀ st : Phase1State,
      (arts.foldl runStep1 st).tasks =
        st.tasks ++ (arts.filter (fun a => !isSkip a)).map Prod.fst := by
  induction arts with
  | nil => intro st; simp
  | cons a rest ih =>
      intro st
      obtain ⟨p, r⟩ := a
      cases r with
      | readError e =>
          rw [List.foldl_cons]
          show (rest.foldl runStep1 _).tasks = _
          rw [ih]
          simp [runStep1, isSkip, skipMsg, List.filter_cons]
      | ok c =>
          by_cases hc : stripChars c.data = []
          · rw [List.foldl_cons]
            show (rest.foldl runStep1 _).tasks = _
            rw [ih]
            simp [runStep1, isSkip, skipMsg, hc, List.filter_cons]
          · rw [List.foldl_cons]
            show (rest.foldl runStep1 _).tasks = _
            rw [ih]
            simp [runStep1, isSkip, skipMsg, hc, List.filter_cons]

theorem foldl_runStep2_results (settle : String → GatherResult)
    (tasks : List String) :
    ∀ st : Phase2State, tasks.Nodup →
      (∀ k ∈ tasks, k ∉ st.results.map Prod.fst) →
      (tasks.foldl (runStep2 settle) st).results =
        st.results ++ (tasks.filter (isSucc settle)).map
          (fun p => (p, (settleVal (settle p)).getD [])) := by
  induction tasks with
  | nil => intro st _ _; simp
  | cons p rest ih =>
      intro st hnd hdisj
      simp only [List.nodup_cons] at hnd
      have hp : p ∉ st.results.map Prod.fst := hdisj p (by simp)
      cases hsp : settle p with
      | exc e =>
          have hstep : runStep2 settle st p =
              ⟨st.results, dictSetG st.errors p ("Analysis error: " ++ e)⟩ := by
            simp [runStep2, hsp]
          rw [List.foldl_cons, hstep,
            ih ⟨st.results, dictSetG st.errors p ("Analysis error: " ++ e)⟩
              hnd.2 (fun k hk => hdisj k (by simp [hk]))]
          simp [isSucc, settleVal, hsp, List.filter_cons]
      | value v =>
          cases v with
          | none =>
              have hstep : runStep2 settle st p =
                  ⟨st.results, dictSetG st.errors p
                    "Analysis failed (LLM error or no content)"⟩ := by
                simp [runStep2, hsp]
              rw [List.foldl_cons, hstep,
                ih ⟨st.results, dictSetG st.errors p
                      "Analysis failed (LLM error or no content)"⟩
                  hnd.2 (fun k hk => hdisj k (by simp [hk]))]
              simp [isSucc, settleVal, hsp, List.filter_cons]
          | some l =>
              have hstep : runStep2 settle st p =
                  ⟨st.results ++ [(p, l)], st.errors⟩ := by
                simp [runStep2, hsp, dictSetG_append st.results p _ hp]
              have hdisj' : ∀ k ∈ rest,
                  k ∉ (st.results ++ [(p, l)]).map Prod.fst := by
                intro k hk
                simp only [List.map_append, List.map_cons, List.map_nil,
                  List.mem_append, List.mem_singleton, not_or]
                refine ⟨hdisj k (by simp [hk]), ?_⟩
                intro hkp
                exact hnd.1 (hkp ▸ hk)
              rw [List.foldl_cons, hstep,
                ih ⟨st.results ++ [(p, l)], st.errors⟩ hnd.2 hdisj']
              simp [isSucc, settleVal, hsp, List.filter_cons]

theorem foldl_runStep2_errors (settle : String → GatherResult)
    (tasks : List String) :
    ∀ st : Phase2State, tasks.Nodup →
      (∀ k ∈ tasks, k ∉ st.errors.map Prod.fst) →
      (tasks.foldl (runStep2 settle) st).errors =
        st.errors ++ (tasks.filter (fun p => !isSucc settle p)).map
          (fun p => (p, (settleErrMsg (settle p)).getD "")) := by
  induction tasks with
  | nil => intro st _ _; simp
  | cons p rest ih =>
      intro st hnd hdisj
      simp only [List.nodup_cons] at hnd
      have hp : p ∉ st.errors.map Prod.fst := hdisj p (by simp)
      have hdisj' : ∀ m : String, ∀ k ∈ rest,
          k ∉ (st.errors ++ [(p, m)]).map Prod.fst := by
        intro m k hk
        simp only [List.map_append, List.map_cons, List.map_nil,
          List.mem_append, List.mem_singleton, not_or]
        refine ⟨hdisj k (by simp [hk]), ?_⟩
        intro hkp
        exact hnd.1 (hkp ▸ hk)
      cases hsp : settle p with
      | exc e =>
          have hstep : runStep2 settle st p =
              ⟨st.results, st.errors ++ [(p, "Analysis error: " ++ e)]⟩ := by
            simp [runStep2, hsp, dictSetG_append st.errors p _ hp]
          rw [List.foldl_cons, hstep,
            ih ⟨st.results, st.errors ++ [(p, "Analysis error: " ++ e)]⟩
              hnd.2 (hdisj' _)]
          simp [isSucc, settleVal, settleErrMsg, hsp, List.filter_cons]
      | value v =>
          cases v with
          | none =>
              have hstep : runStep2 settle st p =
                  ⟨st.results, st.errors ++
                    [(p, "Analysis failed (LLM error or no content)")]⟩ := by
                simp [runStep2, hsp, dictSetG_append st.errors p _ hp]
              rw [List.foldl_cons, hstep,
                ih ⟨st.results, st.errors ++
                      [(p, "Analysis failed (LLM error or no content)")]⟩
                  hnd.2 (hdisj' _)]
              simp [isSucc, settleVal, settleErrMsg, hsp, List.filter_cons]
          | some l =>
              have hstep : runStep2 settle st p =
                  ⟨dictSetG st.results p l, st.errors⟩ := by
                simp [runStep2, hsp]
              rw [List.foldl_cons, hstep,
                ih ⟨dictSetG st.results p l, st.errors⟩ hnd.2
                  (fun k hk => hdisj k (by simp [hk]))]
              simp [isSucc, settleVal, settleErrMsg, hsp, List.filter_cons]

/-! ### Claim theorems -/

/-- Claim C1 (code bug): a Fatal-Auth classification on one artifact does
NOT terminate the run — it is not even recorded as a per-artifact
failure. The auth / bad-request exception classes (llm.py 267-278) all
subclass a retryable base class (llm.py 251-265), so the inner
`except retryable_exceptions` at llm.py 346 catches `A.sol`'s
authentication error first: the call is retried with backoff
(3 attempts, sleeps 2s and 4s) and returns `None` — the
`raise typer.Exit(code=1)` handlers at llm.py 361-370 never run for these
classes (first conjunct: the call trace ends in `returned none`, not
`exited`). `analyze_single_file` turns the `None` into `[]` (analyzer.py
70-74), so the run records `A.sol` as a successful analysis with zero
optimizations, processes `B.sol` as well, and completes normally with no
error entries (second conjunct) — the claim (and spec §4.3, §7) say the
entire run aborts immediately with a non-zero exit code. -/
theorem c1_fatal_classes_retried_and_run_continues :
    call_llm_api (c1behavior "A.sol") LLM_MAX_RETRIES LLM_RETRY_DELAY_BASE =
      ⟨.returned none, 3, [2, 4]⟩ ∧
    run_analysis c1loads c1findall c1arts c1behavior =
      ⟨[("A.sol", []), ("B.sol", [])], [], 2, 0⟩ :=
  ⟨rfl, rfl⟩

/-- Claim C2 (code bug): `c2raw` parses as JSON to a dict with no
list-valued `optimizations` field, and it embeds a bare bracketed
suggestion list that `json_pattern` would capture. The extractor returns
`[]` — the regex scan lives only in the `except JSONDecodeError` branch,
so it never runs here — although that same scan, applied to the `findall`
matches of `c2raw`, recovers the embedded suggestion (second conjunct).
The claim (and spec §4.4 step 1) say the extractor falls through to the
regex scan in this situation. -/
theorem c2_wrong_root_structure_skips_regex_scan :
    parse_llm_json_output c2loads c2findall c2raw = [] ∧
    validateAll (regexExtract c2loads (c2findall c2raw)) =
      [.dict [("description", .str "d"), ("suggested_change", .str "c"),
              ("safety_rationale", .str "r"), ("start_line", .null),
              ("end_line", .null)]] :=
  ⟨rfl, rfl⟩

/-- Claim C3 counterexample: an item whose `description` field holds the
int `1` (not a string) is KEPT by the extractor — the claim says any item
with a non-string required field is dropped. -/
theorem c3_nonstring_description_kept :
    parse_llm_json_output c3loads c3findall c3raw =
      [.dict [("description", .int 1), ("suggested_change", .str "c"),
              ("safety_rationale", .str "r"), ("start_line", .null),
              ("end_line", .null)]] := by rfl

/-- Claim C3 (amended): the validator keeps an item exactly when it is a
dict in which the keys `description`, `suggested_change` and
`safety_rationale` are all present; the types of their values are not
inspected. -/
theorem c3_presence_only_validation (v : PyVal) :
    (validateItem v).isSome = true ↔
      ∃ kvs, v = PyVal.dict kvs ∧
        (dictGet kvs "description").isSome = true ∧
        (dictGet kvs "suggested_change").isSome = true ∧
        (dictGet kvs "safety_rationale").isSome = true := by
  cases v with
  | dict kvs =>
      constructor
      · intro h
        refine ⟨kvs, rfl, ?_, ?_, ?_⟩ <;>
          · simp only [validateItem] at h
            split at h
            · rename_i hc
              simp only [Bool.and_eq_true] at hc
              try exact hc.1.1
              try exact hc.1.2
              try exact hc.2
            · simp at h
      · rintro ⟨kvs', heq, h1, h2, h3⟩
        obtain rfl : kvs = kvs' := by injection heq
        simp [validateItem, h1, h2, h3]
  | null => simp [validateItem]
  | bool b => simp [validateItem]
  | int n => simp [validateItem]
  | float ip fr => simp [validateItem]
  | str s => simp [validateItem]
  | list xs => simp [validateItem]

/-- Witness for C3: the amended characterization applied to the concrete
item `c3item` (all three keys present, `description` non-string). -/
theorem c3_presence_only_validation_witness :
    (validateItem c3item).isSome = true :=
  (c3_presence_only_validation c3item).mpr
    ⟨[("description", .int 1), ("suggested_change", .str "c"),
      ("safety_rationale", .str "r")], rfl, rfl, rfl, rfl⟩

/-- Claim C4 counterexample: a candidate item passing required-field
validation whose `start_line` holds the float `45.0` and whose `end_line`
holds the int `-3`. The claim says both are coerced to integers (float
and int cases); the code maps both to null, because
`str(45.0) = "45.0"` and `str(-3) = "-3"` both fail `.isdigit()`. -/
theorem c4_float_and_negative_not_coerced :
    parse_llm_json_output c4loads c4findall c4raw =
      [.dict [("description", .str "d"), ("suggested_change", .str "c"),
              ("safety_rationale", .str "r"), ("start_line", .null),
              ("end_line", .null)]] := by rfl

/-- Claim C4 (amended): the line coercion yields an integer exactly for a
non-negative int or a digit-only string; a float, a negative int, a
boolean, a non-digit string, and every other representation (including an
absent key) become null. -/
theorem c4_line_coercion :
    (∀ n : Int, 0 ≤ n → coerceLine (some (.int n)) = .int n) ∧
    (∀ n : Int, n < 0 → coerceLine (some (.int n)) = .null) ∧
    (∀ s : String, isdigitL s.data = true →
      coerceLine (some (.str s)) = .int (Int.ofNat (strToNat s.data))) ∧
    (∀ s : String, isdigitL s.data = false →
      coerceLine (some (.str s)) = .null) ∧
    (∀ ip fr, coerceLine (some (.float ip fr)) = .null) ∧
    (∀ b, coerceLine (some (.bool b)) = .null) ∧
    coerceLine (some .null) = .null ∧
    (∀ xs, coerceLine (some (.list xs)) = .null) ∧
    (∀ kvs, coerceLine (some (.dict kvs)) = .null) ∧
    coerceLine none = .null :=
  ⟨coerce_int_nonneg, coerce_int_neg,
   fun s h => by rw [coerce_str, if_pos h],
   fun s h => by rw [coerce_str, if_neg (by simp [h])],
   coerce_float, coerce_bool, rfl, fun _ => rfl, fun _ => rfl, rfl⟩

/-- Witness for C4: the amended coercion evaluated at the four concrete
representations of interest. -/
theorem c4_line_coercion_witness :
    coerceLine (some (.int 45)) = .int 45 ∧
    coerceLine (some (.int (-3))) = .null ∧
    coerceLine (some (.str "12")) = .int 12 ∧
    coerceLine (some (.float 45 "0")) = .null :=
  ⟨c4_line_coercion.1 45 (by decide),
   c4_line_coercion.2.1 (-3) (by decide),
   c4_line_coercion.2.2.1 "12" (by decide),
   c4_line_coercion.2.2.2.2.1 45 "0"⟩

/-- Claim C5: if the whole response parses as a JSON list of well-formed
suggestion objects (the three required fields present as strings, both
line fields present and already null or a non-negative int), the
extractor returns exactly that list, unchanged and in order. -/
theorem c5_roundtrip (loads : String → Option PyVal)
    (findall : String → List (String × String)) (raw : String)
    (items : List PyVal) (h1 : loads raw = some (.list items))
    (h2 : items.all wellFormedItem = true) :
    parse_llm_json_output loads findall raw = items := by
  simp only [parse_llm_json_output, h1]
  exact validateAll_wellFormed items (by simpa [List.all_eq_true] using h2)

/-- Witness for C5: the round trip at the concrete response `c5raw`. -/
theorem c5_roundtrip_witness :
    parse_llm_json_output c5loads c5findall c5raw = c5items :=
  c5_roundtrip c5loads c5findall c5raw c5items rfl (by decide)

/-- Claim C8 counterexample: a suggestion whose `start_line` (50) exceeds
its `end_line` (10) survives validation unchanged — the claimed invariant
`startLine ≤ endLine` is not enforced anywhere. -/
theorem c8_inverted_range_survives :
    parse_llm_json_output c8loads c8findall c8raw = [c8item] ∧
    dictGet c8kvs "start_line" = some (.int 50) ∧
    dictGet c8kvs "end_line" = some (.int 10) ∧ ¬ ((50 : Int) ≤ 10) :=
  ⟨rfl, rfl, rfl, by decide⟩

/-- Claim C8 (amended): every suggestion surviving validation has its
`start_line` and `end_line` each equal to null or a non-negative integer;
no ordering between the two is enforced. -/
theorem c8_surviving_lines_null_or_nat (loads : String → Option PyVal)
    (findall : String → List (String × String)) (raw : String)
    (item : PyVal) (kvs : List (String × PyVal))
    (h1 : item ∈ parse_llm_json_output loads findall raw)
    (h2 : item = PyVal.dict kvs) :
    (∃ a, dictGet kvs "start_line" = some a ∧ nullOrNatV a) ∧
    (∃ b, dictGet kvs "end_line" = some b ∧ nullOrNatV b) := by
  obtain ⟨pool, hp⟩ := parse_exists_pool loads findall raw
  rw [hp] at h1
  obtain ⟨src, _, hv⟩ := List.mem_filterMap.mp h1
  obtain ⟨kvs', heq, hs, he⟩ := validateItem_lines src item hv
  obtain rfl : kvs = kvs' := by rw [h2] at heq; injection heq
  exact ⟨hs, he⟩

/-- Witness for C8: the amended statement at the surviving inverted-range
suggestion `c8item`. -/
theorem c8_surviving_lines_witness :
    (∃ a, dictGet c8kvs "start_line" = some a ∧ nullOrNatV a) ∧
    (∃ b, dictGet c8kvs "end_line" = some b ∧ nullOrNatV b) :=
  c8_surviving_lines_null_or_nat c8loads c8findall c8raw c8item c8kvs
    (by rw [show parse_llm_json_output c8loads c8findall c8raw = [c8item] from rfl]
        exact List.mem_singleton.mpr rfl)
    rfl

/-- Claim C10: every suggestion returned by the extractor is a dict in
which both `start_line` and `end_line` are present (they are written
unconditionally during validation, so they exist even when absent from
the parsed input item), each holding null or a non-negative integer. -/
theorem c10_line_keys_present (loads : String → Option PyVal)
    (findall : String → List (String × String)) (raw : String)
    (item : PyVal) (h : item ∈ parse_llm_json_output loads findall raw) :
    ∃ kvs, item = PyVal.dict kvs ∧
      (∃ a, dictGet kvs "start_line" = some a ∧ nullOrNatV a) ∧
      (∃ b, dictGet kvs "end_line" = some b ∧ nullOrNatV b) := by
  obtain ⟨pool, hp⟩ := parse_exists_pool loads findall raw
  rw [hp] at h
  obtain ⟨src, _, hv⟩ := List.mem_filterMap.mp h
  exact validateItem_lines src item hv

/-- Witness for C10: the input item `c10item` has no line keys at all,
and the extractor's output `c10out` contains both, set to null. -/
theorem c10_line_keys_present_witness :
    ∃ kvs, c10out = PyVal.dict kvs ∧
      (∃ a, dictGet kvs "start_line" = some a ∧ nullOrNatV a) ∧
      (∃ b, dictGet kvs "end_line" = some b ∧ nullOrNatV b) :=
  c10_line_keys_present c10loads c10findall c10raw c10out
    (by rw [show parse_llm_json_output c10loads c10findall c10raw = [c10out] from rfl]
        exact List.mem_singleton.mpr rfl)

/-- Claim C6: provider resolution tests the model identifier against the
pattern lists in the fixed order Gemini, then OpenAI, then Anthropic; the
first matching list determines the provider kind (with the Gemini
`models/` canonicalization), and an identifier matching no list yields
the unknown-model `ValueError`. Keys are supplied explicitly and
non-empty, so credential resolution cannot interfere. -/
theorem c6_provider_resolution_order (m sk gk ak : String)
    (hsk : sk ≠ "") (hgk : gk ≠ "") (hak : ak ≠ "") :
    (anyPatIn (lowerStr m) GEMINI_MODELS = true →
      get_client_details_for_model m (some sk) (some gk) (some ak)
          none none none =
        .ok ("gemini", gk,
          if startsWithL m.data "models/".data then m else "models/" ++ m)) ∧
    (anyPatIn (lowerStr m) GEMINI_MODELS = false →
      anyPatIn (lowerStr m) OPENAI_MODELS = true →
      get_client_details_for_model m (some sk) (some gk) (some ak)
          none none none = .ok ("openai", sk, m)) ∧
    (anyPatIn (lowerStr m) GEMINI_MODELS = false →
      anyPatIn (lowerStr m) OPENAI_MODELS = false →
      anyPatIn (lowerStr m) ANTHROPIC_MODELS = true →
      get_client_details_for_model m (some sk) (some gk) (some ak)
          none none none = .ok ("anthropic", ak, m)) ∧
    (anyPatIn (lowerStr m) GEMINI_MODELS = false →
      anyPatIn (lowerStr m) OPENAI_MODELS = false →
      anyPatIn (lowerStr m) ANTHROPIC_MODELS = false →
      get_client_details_for_model m (some sk) (some gk) (some ak)
          none none none = .error .unknownModel) := by
  refine ⟨?_, ?_, ?_, ?_⟩
  · intro hg
    simp [get_client_details_for_model, hg, pyOrKey, hgk]
  · intro hg ho
    simp [get_client_details_for_model, hg, ho, pyOrKey, hsk]
  · intro hg ho ha
    simp [get_client_details_for_model, hg, ho, ha, pyOrKey, hak]
  · intro hg ho ha
    simp [get_client_details_for_model, hg, ho, ha]

/-- Witness for C6: `"gemini-gpt-claude-x"` contains a pattern of every
provider list, and resolves to Gemini — the first list in the checking
order — with the `models/` canonicalization applied. -/
theorem c6_provider_resolution_order_witness :
    get_client_details_for_model "gemini-gpt-claude-x"
        (some "ok") (some "gk") (some "ak") none none none =
      .ok ("gemini", "gk", "models/gemini-gpt-claude-x") :=
  (c6_provider_resolution_order "gemini-gpt-claude-x" "ok" "gk" "ak"
    (by decide) (by decide) (by decide)).1 (by decide)

/-- Claim C7: a provider raising a Transient error on every attempt makes
`call_llm_api` perform exactly `LLM_MAX_RETRIES + 1 = 3` attempts, with
backoff sleeps `LLM_RETRY_DELAY_BASE * 2 ^ k` seconds after attempt `k`
(2s then 4s), and finally return `None` — the per-artifact, non-fatal
failure signal (llm.py line 359), not a `typer.Exit`. -/
theorem c7_transient_exhaustion (behavior : Nat → AttemptOutcome)
    (h : ∀ k, behavior k = .transient) :
    call_llm_api behavior LLM_MAX_RETRIES LLM_RETRY_DELAY_BASE =
      ⟨.returned none, 3, [2, 4]⟩ ∧ LLM_MAX_RETRIES + 1 = 3 := by
  refine ⟨?_, rfl⟩
  norm_num [call_llm_api, callLoop, h, LLM_MAX_RETRIES, LLM_RETRY_DELAY_BASE]

/-- Witness for C7: the always-transient behaviour. -/
theorem c7_transient_exhaustion_witness :
    call_llm_api (fun _ => AttemptOutcome.transient)
        LLM_MAX_RETRIES LLM_RETRY_DELAY_BASE =
      ⟨.returned none, 3, [2, 4]⟩ ∧ LLM_MAX_RETRIES + 1 = 3 :=
  c7_transient_exhaustion (fun _ => .transient) (fun _ => rfl)

/-- Claim C9: in the final report of any run over artifacts with distinct
identifiers, the key sets of `results_by_file` and `errors_by_file` are
disjoint, their union covers exactly the input artifacts, and
`skippedCount + succeededCount + failedCount = totalArtifacts` — here
`succeededCount` is the number of result entries and `failedCount` the
number of error entries beyond the skipped ones, matching the spec's
count definitions (the code's metadata exposes `files_with_results_count`
and `files_with_errors_count = skipped + failed`). -/
theorem c9_report_partition (loads : String → Option PyVal)
    (findall : String → List (String × String))
    (arts : List (String × ReadResult))
    (behavior : String → Nat → AttemptOutcome)
    (h : (arts.map Prod.fst).Nodup) :
    (∀ k, ¬ (k ∈ (run_analysis loads findall arts behavior).results_by_file.map Prod.fst ∧
             k ∈ (run_analysis loads findall arts behavior).errors_by_file.map Prod.fst)) ∧
    (∀ k, (k ∈ (run_analysis loads findall arts behavior).results_by_file.map Prod.fst ∨
           k ∈ (run_analysis loads findall arts behavior).errors_by_file.map Prod.fst) ↔
          k ∈ arts.map Prod.fst) ∧
    (run_analysis loads findall arts behavior).skipped_files_count ≤
      (run_analysis loads findall arts behavior).errors_by_file.length ∧
    (run_analysis loads findall arts behavior).skipped_files_count +
      (run_analysis loads findall arts behavior).results_by_file.length +
      ((run_analysis loads findall arts behavior).errors_by_file.length -
        (run_analysis loads findall arts behavior).skipped_files_count) =
      arts.length := by
  have h1e := foldl_runStep1_errors arts ⟨[], 0, []⟩ h (by simp)
  have h1s := foldl_runStep1_skipped arts ⟨[], 0, []⟩
  have h1t := foldl_runStep1_tasks arts ⟨[], 0, []⟩
  simp only [List.nil_append, Nat.zero_add] at h1e h1s h1t
  -- names for the three key blocks
  have hperm1 : List.Perm
      ((arts.filter isSkip).map Prod.fst ++
        (arts.filter (fun a => !isSkip a)).map Prod.fst)
      (arts.map Prod.fst) := by
    have hp := (List.filter_append_perm isSkip arts).map Prod.fst
    simpa [List.map_append] using hp
  have hndST := hperm1.nodup_iff.mpr h
  have hndT : ((arts.filter (fun a => !isSkip a)).map Prod.fst).Nodup :=
    (List.nodup_append.mp hndST).2.1
  have hdisjST : List.Disjoint ((arts.filter isSkip).map Prod.fst)
      ((arts.filter (fun a => !isSkip a)).map Prod.fst) :=
    (List.nodup_append.mp hndST).2.2
  have hkeysE1 : ((arts.filter isSkip).map
      (fun a => (a.1, (skipMsg a.2).getD ""))).map Prod.fst =
      (arts.filter isSkip).map Prod.fst := by
    simp [List.map_map, Function.comp]
  have h2R := foldl_runStep2_results
    (fun p => analyze_single_file loads findall (behavior p))
    ((arts.filter (fun a => !isSkip a)).map Prod.fst)
    ⟨[], (arts.filter isSkip).map (fun a => (a.1, (skipMsg a.2).getD ""))⟩
    hndT (by simp)
  have h2E := foldl_runStep2_errors
    (fun p => analyze_single_file loads findall (behavior p))
    ((arts.filter (fun a => !isSkip a)).map Prod.fst)
    ⟨[], (arts.filter isSkip).map (fun a => (a.1, (skipMsg a.2).getD ""))⟩
    hndT (by
      intro k hk
      rw [show (Phase2State.mk []
          ((arts.filter isSkip).map (fun a => (a.1, (skipMsg a.2).getD "")))).errors =
          (arts.filter isSkip).map (fun a => (a.1, (skipMsg a.2).getD "")) from rfl,
        hkeysE1]
      intro hkS
      exact hdisjST hkS hk)
  simp only [List.nil_append] at h2R h2E
  -- the three report components
  have hRkeys : (run_analysis loads findall arts behavior).results_by_file =
      (((arts.filter (fun a => !isSkip a)).map Prod.fst).filter
        (isSucc (fun p => analyze_single_file loads findall (behavior p)))).map
        (fun p => (p, (settleVal
          (analyze_single_file loads findall (behavior p))).getD [])) := by
    show (((arts.foldl runStep1 ⟨[], 0, []⟩).tasks).foldl
        (runStep2 (fun p => analyze_single_file loads findall (behavior p)))
        ⟨[], (arts.foldl runStep1 ⟨[], 0, []⟩).errors⟩).results = _
    rw [h1t, h1e]
    exact h2R
  have hEkeys : (run_analysis loads findall arts behavior).errors_by_file =
      (arts.filter isSkip).map (fun a => (a.1, (skipMsg a.2).getD "")) ++
      (((arts.filter (fun a => !isSkip a)).map Prod.fst).filter
        (fun p => !isSucc (fun q => analyze_single_file loads findall (behavior q)) p)).map
        (fun p => (p, (settleErrMsg
          (analyze_single_file loads findall (behavior p))).getD "")) := by
    show (((arts.foldl runStep1 ⟨[], 0, []⟩).tasks).foldl
        (runStep2 (fun p => analyze_single_file loads findall (behavior p)))
        ⟨[], (arts.foldl runStep1 ⟨[], 0, []⟩).errors⟩).errors = _
    rw [h1t, h1e]
    exact h2E
  have hskip : (run_analysis loads findall arts behavior).skipped_files_count =
      (arts.filter isSkip).length := by
    show (arts.foldl runStep1 ⟨[], 0, []⟩).skipped = _
    rw [h1s]
  -- key lists of the two dicts
  have hRK : (run_analysis loads findall arts behavior).results_by_file.map Prod.fst =
      ((arts.filter (fun a => !isSkip a)).map Prod.fst).filter
        (isSucc (fun p => analyze_single_file loads findall (behavior p))) := by
    rw [hRkeys]
    simp [List.map_map, Function.comp_def]
  have hEK : (run_analysis loads findall arts behavior).errors_by_file.map Prod.fst =
      (arts.filter isSkip).map Prod.fst ++
      ((arts.filter (fun a => !isSkip a)).map Prod.fst).filter
        (fun p => !isSucc (fun q => analyze_single_file loads findall (behavior q)) p) := by
    rw [hEkeys]
    simp [List.map_map, Function.comp_def]
  -- the grand permutation
  have hpermT : List.Perm
      (((arts.filter (fun a => !isSkip a)).map Prod.fst).filter
          (isSucc (fun p => analyze_single_file loads findall (behavior p))) ++
        ((arts.filter (fun a => !isSkip a)).map Prod.fst).filter
          (fun p => !isSucc (fun q => analyze_single_file loads findall (behavior q)) p))
      ((arts.filter (fun a => !isSkip a)).map Prod.fst) :=
    List.filter_append_perm _ _
  have hperm : List.Perm
      ((run_analysis loads findall arts behavior).results_by_file.map Prod.fst ++
        (run_analysis loads findall arts behavior).errors_by_file.map Prod.fst)
      (arts.map Prod.fst) := by
    rw [hRK, hEK]
    refine List.Perm.trans ?_ hperm1
    have step1 : List.Perm
        (((arts.filter (fun a => !isSkip a)).map Prod.fst).filter
            (isSucc (fun p => analyze_single_file loads findall (behavior p))) ++
          ((arts.filter isSkip).map Prod.fst ++
            ((arts.filter (fun a => !isSkip a)).map Prod.fst).filter
              (fun p => !isSucc (fun q => analyze_single_file loads findall (behavior q)) p)))
        ((arts.filter isSkip).map Prod.fst ++
          (((arts.filter (fun a => !isSkip a)).map Prod.fst).filter
              (isSucc (fun p => analyze_single_file loads findall (behavior p))) ++
            ((arts.filter (fun a => !isSkip a)).map Prod.fst).filter
              (fun p => !isSucc (fun q => analyze_single_file loads findall (behavior q)) p))) := by
      rw [← List.append_assoc, ← List.append_assoc]
      exact List.Perm.append_right _ List.perm_append_comm
    exact step1.trans (List.Perm.append_left _ hpermT)
  have hnod := hperm.nodup_iff.mpr h
  refine ⟨?_, ?_, ?_, ?_⟩
  · intro k hk
    exact (List.disjoint_of_nodup_append hnod) hk.1 hk.2
  · intro k
    rw [← List.mem_append]
    exact hperm.mem_iff
  · rw [hskip, hEkeys]
    simp [List.length_append]
  · have hlen := hperm.length_eq
    rw [hskip]
    rw [hRkeys, hEkeys] at *
    simp only [List.length_append, List.length_map] at *
    omega

/-- Witness for C9: a four-artifact run (one empty, one unreadable, one
succeeding, one whose analysis raises an unexpected exception and lands
as a per-artifact analysis error) with distinct paths. -/
theorem c9_report_partition_witness :
    (∀ k, ¬ (k ∈ (run_analysis c9loads c9findall c9arts c9behavior).results_by_file.map Prod.fst ∧
             k ∈ (run_analysis c9loads c9findall c9arts c9behavior).errors_by_file.map Prod.fst)) ∧
    (∀ k, (k ∈ (run_analysis c9loads c9findall c9arts c9behavior).results_by_file.map Prod.fst ∨
           k ∈ (run_analysis c9loads c9findall c9arts c9behavior).errors_by_file.map Prod.fst) ↔
          k ∈ c9arts.map Prod.fst) ∧
    (run_analysis c9loads c9findall c9arts c9behavior).skipped_files_count ≤
      (run_analysis c9loads c9findall c9arts c9behavior).errors_by_file.length ∧
    (run_analysis c9loads c9findall c9arts c9behavior).skipped_files_count +
      (run_analysis c9loads c9findall c9arts c9behavior).results_by_file.length +
      ((run_analysis c9loads c9findall c9arts c9behavior).errors_by_file.length -
        (run_analysis c9loads c9findall c9arts c9behavior).skipped_files_count) =
      c9arts.length :=
  c9_report_partition c9loads c9findall c9arts c9behavior (by decide)

end Mythra
